import Mathlib

/-!
Shallow embedding of `app/src/frame_pipe_sink.c` (frame pipe sink of scrcpy):
the YUV420P named-pipe frame serialization protocol and its writer state
machine. Pure byte-layout functions model the protocol encoder; the writer
state (`struct sc_frame_pipe_sink`) is explicit; the outcomes of the
`write`/`writev`/`malloc` calls are an oracle threaded through each
operation, and the bytes of each successful write call are recorded as one
chunk.
-/

namespace FramePipeSink

/-- State of `struct sc_frame_pipe_sink` (frame_pipe_sink.h): pipe file
descriptor (`-1` when closed), `stopped` flag, last emitted dimensions, and
the reusable scratch buffer modelled by its non-NULL flag and recorded size.
The `pipe_path` and `time_base` fields are not needed by the protocol logic
(`time_base` is abstracted into the `rescale` parameter of push). -/
structure SinkState where
  fd : Int
  stopped : Bool
  width : Nat
  height : Nat
  frame_buf : Bool
  frame_buf_size : Nat
deriving Repr, DecidableEq

/-- Input `AVFrame` as consumed by the sink: dimensions, one stride and one
plane buffer (a byte at each offset) per plane, and the presentation
timestamp, with `none` standing for `AV_NOPTS_VALUE`. -/
structure AVFrame where
  width : Nat
  height : Nat
  linesize0 : Nat
  linesize1 : Nat
  linesize2 : Nat
  data0 : Nat → Nat
  data1 : Nat → Nat
  data2 : Nat → Nat
  pts : Option Int

/-- The I/O world: `writeOk i` is the outcome of the i-th write/writev call,
`allocOk i` the outcome of the i-th malloc, with counters, and `chunks` the
bytes of each successful write call in order. -/
structure IOState where
  writeOk : Nat → Bool
  allocOk : Nat → Bool
  nwrites : Nat
  nallocs : Nat
  chunks : List (List Nat)

/-- One blocking `write`/`writev` call: on success all bytes are emitted as
one chunk; on failure (short write / error) nothing is recorded. -/
def doWrite (io : IOState) (bytes : List Nat) : IOState × Bool :=
  if io.writeOk io.nwrites then
    ({ io with nwrites := io.nwrites + 1, chunks := io.chunks ++ [bytes] }, true)
  else
    ({ io with nwrites := io.nwrites + 1 }, false)

/-- Little-endian bytes of a u32 field, as `(v >> 8k) & 0xFF` on a
nonnegative C int. -/
def le32_bytes (v : Nat) : List Nat :=
  [v % 256, v / 256 % 256, v / 65536 % 256, v / 16777216 % 256]

/-- The 12 bytes built by `write_header`: ASCII magic "YUV4" (0x59 0x55 0x56
0x34), then width and height as little-endian u32. -/
def header_bytes (width height : Nat) : List Nat :=
  [0x59, 0x55, 0x56, 0x34] ++ le32_bytes width ++ le32_bytes height

/-- `write_header` (frame_pipe_sink.c:19-47): one write of the 12 header
bytes; on success the stored last-emitted dimensions are updated, on a short
write they are left unchanged and failure is reported. -/
def write_header (fps : SinkState) (width height : Nat) (io : IOState) :
    SinkState × IOState × Bool :=
  let r := doWrite io (header_bytes width height)
  if r.2 then
    ({ fps with width := width, height := height }, r.1, true)
  else
    (fps, r.1, false)

/-- The 8 bytes built by `write_pts` (frame_pipe_sink.c:50-61):
`(pts_us >> 8k) & 0xFF` for k = 0..7. In C, `>>` on `int64_t` is an
arithmetic shift, i.e. floor division by 2^(8k), which coincides with
Euclidean division `/` on `Int` because the divisor is positive; `& 0xFF`
on a two's-complement value is the Euclidean remainder `% 256`. -/
def write_pts_bytes (pts_us : Int) : List Nat :=
  [(pts_us % 256).toNat,
   (pts_us / 256 % 256).toNat,
   (pts_us / 65536 % 256).toNat,
   (pts_us / 16777216 % 256).toNat,
   (pts_us / 4294967296 % 256).toNat,
   (pts_us / 1099511627776 % 256).toNat,
   (pts_us / 281474976710656 % 256).toNat,
   (pts_us / 72057594037927936 % 256).toNat]

/-- `write_pts`: one write of the 8 little-endian timestamp bytes. -/
def write_pts (io : IOState) (pts_us : Int) : IOState × Bool :=
  doWrite io (write_pts_bytes pts_us)

/-- Bytes of one plane as copied by the slow-path row loop: `height` rows,
each the first `width` bytes of the row starting at offset `y * linesize`. -/
def plane_rows (data : Nat → Nat) (linesize width height : Nat) : List Nat :=
  (List.range height).flatMap fun y =>
    (List.range width).map fun j => data (y * linesize + j)

/-- `uv_width = width / 2` (frame_pipe_sink.c:78). -/
def uv_width (frame : AVFrame) : Nat := frame.width / 2

/-- `uv_height = height / 2` (frame_pipe_sink.c:79). -/
def uv_height (frame : AVFrame) : Nat := frame.height / 2

/-- `frame_size = y_size + uv_size * 2` (frame_pipe_sink.c:82-84). -/
def frame_payload_size (frame : AVFrame) : Nat :=
  frame.width * frame.height + uv_width frame * uv_height frame * 2

/-- `can_write_direct` (frame_pipe_sink.c:87-90): every plane's stride
equals its logical row width. -/
def can_write_direct (frame : AVFrame) : Bool :=
  frame.linesize0 == frame.width &&
  frame.linesize1 == uv_width frame &&
  frame.linesize2 == uv_width frame

/-- Bytes passed to `writev` on the fast path: the first `y_size` bytes of
plane 0, then the first `uv_size` bytes of planes 1 and 2. -/
def direct_payload (frame : AVFrame) : List Nat :=
  (List.range (frame.width * frame.height)).map frame.data0
    ++ (List.range (uv_width frame * uv_height frame)).map frame.data1
    ++ (List.range (uv_width frame * uv_height frame)).map frame.data2

/-- Bytes assembled in the scratch buffer by the slow path's three row
loops (frame_pipe_sink.c:130-143): Y rows, then U rows, then V rows. -/
def copy_payload (frame : AVFrame) : List Nat :=
  plane_rows frame.data0 frame.linesize0 frame.width frame.height
    ++ plane_rows frame.data1 frame.linesize1 (uv_width frame) (uv_height frame)
    ++ plane_rows frame.data2 frame.linesize2 (uv_width frame) (uv_height frame)

/-- The payload bytes a successful `write_frame_data` emits, by path. -/
def payload_bytes (frame : AVFrame) : List Nat :=
  if can_write_direct frame then direct_payload frame else copy_payload frame

/-- `write_frame_data` (frame_pipe_sink.c:74-158). Fast path: one `writev`
of the three planes. Slow path: if the scratch buffer is NULL or smaller
than `frame_size`, free it and `malloc(frame_size)` (on malloc failure the
buffer is NULL, its recorded size is left unchanged, and failure is
reported); then copy the rows and issue one write of the whole buffer. -/
def write_frame_data (fps : SinkState) (frame : AVFrame) (io : IOState) :
    SinkState × IOState × Bool :=
  let frame_size := frame_payload_size frame
  if can_write_direct frame then
    let r := doWrite io (direct_payload frame)
    (fps, r.1, r.2)
  else if fps.frame_buf = false ∨ fps.frame_buf_size < frame_size then
    if io.allocOk io.nallocs then
      let fps1 := { fps with frame_buf := true, frame_buf_size := frame_size }
      let r := doWrite { io with nallocs := io.nallocs + 1 } (copy_payload frame)
      (fps1, r.1, r.2)
    else
      ({ fps with frame_buf := false }, { io with nallocs := io.nallocs + 1 }, false)
  else
    let r := doWrite io (copy_payload frame)
    (fps, r.1, r.2)

/-- The microsecond timestamp computed in push (frame_pipe_sink.c:222-227):
0 for the `AV_NOPTS_VALUE` sentinel, otherwise the rational rescale
`av_rescale_q(pts, time_base, {1, 1000000})`, abstracted as `rescale`. -/
def pts_us_of (rescale : Int → Int) (frame : AVFrame) : Int :=
  match frame.pts with
  | none => 0
  | some p => rescale p

/-- `sc_frame_pipe_sink_push` (frame_pipe_sink.c:206-242): reject when the
descriptor is negative or the sink is stopped; write a header first when the
frame's dimensions differ from the last emitted ones; then write the
timestamp and the payload. Any write failure sets `stopped` and reports
failure. -/
def sc_frame_pipe_sink_push (rescale : Int → Int) (fps : SinkState)
    (frame : AVFrame) (io : IOState) : SinkState × IOState × Bool :=
  if fps.fd < 0 ∨ fps.stopped = true then
    (fps, io, false)
  else
    let hdr :=
      if frame.width ≠ fps.width ∨ frame.height ≠ fps.height then
        write_header fps frame.width frame.height io
      else
        (fps, io, true)
    if hdr.2.2 = false then
      ({ hdr.1 with stopped := true }, hdr.2.1, false)
    else
      let pw := write_pts hdr.2.1 (pts_us_of rescale frame)
      if pw.2 = false then
        ({ hdr.1 with stopped := true }, pw.1, false)
      else
        let fw := write_frame_data hdr.1 frame pw.1
        if fw.2.2 = false then
          ({ fw.1 with stopped := true }, fw.2.1, false)
        else
          (fw.1, fw.2.1, true)

/-- `sc_frame_pipe_sink_open` (frame_pipe_sink.c:160-191): `mkfifo` failure
leaves the state unchanged; otherwise the descriptor field receives the
result of `open` (negative on failure); on success the last-emitted
dimensions are reset to 0 and `stopped` to false. -/
def sc_frame_pipe_sink_open (fps : SinkState) (mkfifo_ok : Bool)
    (new_fd : Int) : SinkState × Bool :=
  if mkfifo_ok = false then
    (fps, false)
  else
    let fps1 := { fps with fd := new_fd }
    if new_fd < 0 then
      (fps1, false)
    else
      ({ fps1 with width := 0, height := 0, stopped := false }, true)

/-- `sc_frame_pipe_sink_close` (frame_pipe_sink.c:193-204): close the
descriptor if open and reset it to -1; otherwise leave the state unchanged. -/
def sc_frame_pipe_sink_close (fps : SinkState) : SinkState :=
  if 0 ≤ fps.fd then { fps with fd := -1 } else fps

/-- A serial sequence of push calls on one instance, threading state and
I/O world. -/
def pushSeq (rescale : Int → Int) : List AVFrame → SinkState → IOState →
    SinkState × IOState
  | [], fps, io => (fps, io)
  | f :: fs, fps, io =>
    let r := sc_frame_pipe_sink_push rescale fps f io
    pushSeq rescale fs r.1 r.2.1

/-- Fields set by `sc_frame_pipe_sink_init` (frame_pipe_sink.c:244-256). -/
def sc_frame_pipe_sink_init : SinkState :=
  { fd := -1, stopped := false, width := 0, height := 0,
    frame_buf := false, frame_buf_size := 0 }

/-- Decoder of the 8-byte little-endian two's-complement timestamp field, as
the external reader interprets it (spec wire format, section 6): assemble the
unsigned 64-bit value, then take the two's-complement signed reading. Any
input that is not exactly 8 bytes is rejected as 0. -/
def decode_i64_le : List Nat → Int
  | [b0, b1, b2, b3, b4, b5, b6, b7] =>
    let n : Nat := b0 + b1 * 256 + b2 * 65536 + b3 * 16777216
      + b4 * 4294967296 + b5 * 1099511627776 + b6 * 281474976710656
      + b7 * 72057594037927936
    if n < 9223372036854775808 then (n : Int)
    else (n : Int) - 18446744073709551616
  | _ => 0

/-- Decoder of a 12-byte dimension packet, per the reader logic documented
in frame_pipe_sink.h:23-25 and the spec wire format: check the magic, then
read width and height as little-endian u32; anything else is rejected. -/
def decode_header : List Nat → Option (Nat × Nat)
  | [m0, m1, m2, m3, w0, w1, w2, w3, h0, h1, h2, h3] =>
    if m0 = 0x59 ∧ m1 = 0x55 ∧ m2 = 0x56 ∧ m3 = 0x34 then
      some (w0 + w1 * 256 + w2 * 65536 + w3 * 16777216,
            h0 + h1 * 256 + h2 * 65536 + h3 * 16777216)
    else
      none
  | _ => none

/-- A concrete 2x2 test frame with no stride padding. -/
def testFrame : AVFrame :=
  { width := 2, height := 2, linesize0 := 2, linesize1 := 1, linesize2 := 1,
    data0 := fun i => (10 + i) % 256, data1 := fun i => (100 + i) % 256,
    data2 := fun i => (200 + i) % 256, pts := some 7 }

/-- A concrete 2x2 test frame with stride padding on every plane. -/
def testFramePadded : AVFrame :=
  { width := 2, height := 2, linesize0 := 5, linesize1 := 3, linesize2 := 4,
    data0 := fun i => (10 + i) % 256, data1 := fun i => (100 + i) % 256,
    data2 := fun i => (200 + i) % 256, pts := none }

/-- An I/O world in which every write and every allocation succeeds. -/
def ioAllOk : IOState :=
  { writeOk := fun _ => true, allocOk := fun _ => true,
    nwrites := 0, nallocs := 0, chunks := [] }

/-- An I/O world in which every write fails. -/
def ioWriteFail : IOState :=
  { writeOk := fun _ => false, allocOk := fun _ => true,
    nwrites := 0, nallocs := 0, chunks := [] }

/-- A sink state as after a successful open on descriptor 3. -/
def openedState : SinkState :=
  { fd := 3, stopped := false, width := 0, height := 0,
    frame_buf := false, frame_buf_size := 0 }

/-- A sink state whose `stopped` flag is set. -/
def stoppedState : SinkState :=
  { fd := 3, stopped := true, width := 2, height := 2,
    frame_buf := true, frame_buf_size := 6 }

/-- Row decomposition of a contiguous plane: when the stride equals the row
width, reading the first `h * w` bytes in order is the same as reading `h`
rows of `w` bytes each. -/
theorem plane_rows_no_padding (f : Nat → Nat) (w h : Nat) :
    plane_rows f w w h = (List.range (h * w)).map f := by
  induction h with
  | zero => simp [plane_rows]
  | succ h ih =>
    rw [plane_rows, List.range_succ, List.flatMap_append, ← plane_rows,
      Nat.succ_mul, List.range_add, List.map_append, ih]
    simp [Function.comp]

/-- Length of a row-by-row plane copy: `h` rows of `w` bytes. -/
theorem plane_rows_length (f : Nat → Nat) (ls w h : Nat) :
    (plane_rows f ls w h).length = h * w := by
  induction h with
  | zero => simp [plane_rows]
  | succ h ih =>
    rw [plane_rows, List.range_succ, List.flatMap_append, ← plane_rows]
    simp [ih, Nat.succ_mul]

/-- Shared refinement lemma: with no stride padding, the fast-path byte
sequence coincides with the slow-path byte sequence. -/
theorem direct_payload_eq_copy_payload (frame : AVFrame)
    (h0 : frame.linesize0 = frame.width)
    (h1 : frame.linesize1 = uv_width frame)
    (h2 : frame.linesize2 = uv_width frame) :
    direct_payload frame = copy_payload frame := by
  rw [direct_payload, copy_payload, h0, h1, h2,
    plane_rows_no_padding, plane_rows_no_padding, plane_rows_no_padding,
    Nat.mul_comm frame.width frame.height,
    Nat.mul_comm (uv_width frame) (uv_height frame)]

/-- The payload chunk is the packed row sequence on either path: on the
fast path the stride equalities make the contiguous read equal to the
row-by-row read. -/
theorem payload_bytes_eq_copy_payload (frame : AVFrame) :
    payload_bytes frame = copy_payload frame := by
  unfold payload_bytes
  by_cases hd : can_write_direct frame
  · obtain ⟨⟨h0, h1⟩, h2⟩ :
        (frame.linesize0 = frame.width ∧ frame.linesize1 = uv_width frame) ∧
          frame.linesize2 = uv_width frame := by
      simpa [can_write_direct, Bool.and_eq_true, beq_iff_eq] using hd
    simp only [hd, if_true]
    exact direct_payload_eq_copy_payload frame h0 h1 h2
  · simp [hd]

/-- Length of the packed payload: Y plane plus the two chroma planes. -/
theorem copy_payload_length (frame : AVFrame) :
    (copy_payload frame).length =
      frame.height * frame.width
        + uv_height frame * uv_width frame + uv_height frame * uv_width frame := by
  simp [copy_payload, plane_rows_length, Nat.add_assoc]

/-- A successful write call appends exactly its bytes as one chunk. -/
theorem doWrite_ok_chunks (io : IOState) (b : List Nat)
    (h : (doWrite io b).2 = true) :
    (doWrite io b).1.chunks = io.chunks ++ [b] := by
  unfold doWrite at *
  by_cases hw : io.writeOk io.nwrites <;> simp [hw] at *

/-- A failed write call appends nothing. -/
theorem doWrite_fail_chunks (io : IOState) (b : List Nat)
    (h : (doWrite io b).2 = false) :
    (doWrite io b).1.chunks = io.chunks := by
  unfold doWrite at *
  by_cases hw : io.writeOk io.nwrites <;> simp [hw] at *

/-- A successful `write_frame_data` emits exactly one chunk: the payload of
the taken path. -/
theorem write_frame_data_ok_chunks (fps : SinkState) (frame : AVFrame)
    (io : IOState) (hok : (write_frame_data fps frame io).2.2 = true) :
    (write_frame_data fps frame io).2.1.chunks
      = io.chunks ++ [payload_bytes frame] := by
  unfold write_frame_data payload_bytes at *
  by_cases hd : can_write_direct frame
  · simp only [hd, if_true] at *
    unfold doWrite at *
    by_cases hw : io.writeOk io.nwrites <;> simp [hw] at *
  · simp only [hd, if_false, Bool.false_eq_true] at *
    by_cases hb : fps.frame_buf = false ∨ fps.frame_buf_size < frame_payload_size frame
    · simp only [hb, if_true] at *
      by_cases ha : io.allocOk io.nallocs
      · simp only [ha, if_true] at *
        unfold doWrite at *
        by_cases hw : io.writeOk io.nwrites <;> simp [hw] at *
      · simp [ha] at hok
    · simp only [hb, if_false] at *
      unfold doWrite at *
      by_cases hw : io.writeOk io.nwrites <;> simp [hw] at *

/-- C1: for every input frame with even width and height (both >= 2) and
every plane stride at least its logical row width, a successful payload
write emits exactly width*height*1.5 bytes: the height Y rows (width bytes
each), then the height/2 U rows (width/2 bytes each), then the height/2 V
rows, with no stride padding in the output, regardless of the input
strides. -/
theorem write_frame_data_emits_packed_payload (fps : SinkState)
    (frame : AVFrame) (io : IOState)
    (hw2 : 2 ≤ frame.width) (hweven : frame.width % 2 = 0)
    (hh2 : 2 ≤ frame.height) (hheven : frame.height % 2 = 0)
    (hl0 : frame.width ≤ frame.linesize0)
    (hl1 : frame.width / 2 ≤ frame.linesize1)
    (hl2 : frame.width / 2 ≤ frame.linesize2)
    (hok : (write_frame_data fps frame io).2.2 = true) :
    (write_frame_data fps frame io).2.1.chunks
        = io.chunks ++ [copy_payload frame]
      ∧ (copy_payload frame).length = frame.width * frame.height * 3 / 2 := by
  refine ⟨?_, ?_⟩
  · rw [write_frame_data_ok_chunks fps frame io hok,
      payload_bytes_eq_copy_payload]
  · obtain ⟨a, ha⟩ : ∃ a, frame.width = 2 * a := ⟨frame.width / 2, by omega⟩
    obtain ⟨b, hb⟩ : ∃ b, frame.height = 2 * b := ⟨frame.height / 2, by omega⟩
    rw [copy_payload_length, uv_width, uv_height, ha, hb]
    have h2a : 2 * a / 2 = a := by omega
    have h2b : 2 * b / 2 = b := by omega
    rw [h2a, h2b]
    have h12 : 2 * a * (2 * b) * 3 = 6 * (a * b) * 2 := by ring
    rw [h12, Nat.mul_div_cancel _ (by norm_num)]
    ring

/-- C1 witness: a concrete 2x2 frame with stride padding on every plane,
written through the copy path with all I/O succeeding. -/
theorem write_frame_data_emits_packed_payload_witness :
    (write_frame_data openedState testFramePadded ioAllOk).2.1.chunks
        = ioAllOk.chunks ++ [copy_payload testFramePadded]
      ∧ (copy_payload testFramePadded).length = 2 * 2 * 3 / 2 :=
  write_frame_data_emits_packed_payload openedState testFramePadded ioAllOk
    (by decide) (by decide) (by decide) (by decide) (by decide) (by decide)
    (by decide) (by decide)

/-- C2: for every frame whose three plane strides equal their logical row
widths, the byte sequence produced by the direct (vectored-write) path
equals the byte sequence the copy (scratch-buffer) path would produce for
the same logical pixel content: the path choice never changes the output
bytes. -/
theorem direct_path_eq_copy_path (frame : AVFrame)
    (h0 : frame.linesize0 = frame.width)
    (h1 : frame.linesize1 = frame.width / 2)
    (h2 : frame.linesize2 = frame.width / 2) :
    direct_payload frame = copy_payload frame :=
  direct_payload_eq_copy_payload frame h0 h1 h2

/-- C2 witness: the two paths agree byte-for-byte on a concrete unpadded
2x2 frame. -/
theorem direct_path_eq_copy_path_witness :
    direct_payload testFrame = copy_payload testFrame :=
  direct_path_eq_copy_path testFrame (by decide) (by decide) (by decide)

/-- C4 counterexample: the claim that no realistic (sub-multi-millennium)
timestamp collides with the magic is false. The concrete timestamp
878073177 microseconds (about 14.6 minutes, far below one hour, let alone a
millennium) has low 4 bytes exactly equal to the ASCII magic "YUV4" of the
dimension packet. -/
theorem pts_magic_collision :
    (0 : Int) ≤ 878073177 ∧ (878073177 : Int) < 3600000000
      ∧ (write_pts_bytes 878073177).take 4 = (header_bytes 640 480).take 4 := by
  refine ⟨by norm_num, by norm_num, ?_⟩
  have hh : (header_bytes 640 480).take 4 = [0x59, 0x55, 0x56, 0x34] := by
    decide
  rw [hh]
  simp only [write_pts_bytes, List.take_succ_cons, List.take_zero,
    List.cons.injEq, and_true]
  refine ⟨?_, ?_, ?_, ?_⟩ <;> omega

/-- C4 (amended): the first 4 bytes of the little-endian timestamp encoding
differ from the ASCII magic "YUV4" exactly for timestamps below the first
collision point 878073177 microseconds (about 14.6 minutes); the
multi-millennium bound claimed by the spec does not hold. -/
theorem pts_low_bytes_avoid_magic_below_first_collision (t : Int)
    (h0 : 0 ≤ t) (h1 : t < 878073177) :
    (write_pts_bytes t).take 4 ≠ [0x59, 0x55, 0x56, 0x34] := by
  intro hc
  simp only [write_pts_bytes, List.take_succ_cons, List.take_zero,
    List.cons.injEq, and_true] at hc
  omega

/-- C4 witness: the timestamp 0 does not collide with the magic. -/
theorem pts_low_bytes_avoid_magic_below_first_collision_witness :
    (write_pts_bytes 0).take 4 ≠ [0x59, 0x55, 0x56, 0x34] :=
  pts_low_bytes_avoid_magic_below_first_collision 0 (by norm_num) (by norm_num)

/-- Unfolding of the timestamp decoder on an explicit 8-byte list. -/
theorem decode_i64_le_cons (b0 b1 b2 b3 b4 b5 b6 b7 : Nat) :
    decode_i64_le [b0, b1, b2, b3, b4, b5, b6, b7]
      = if b0 + b1 * 256 + b2 * 65536 + b3 * 16777216
          + b4 * 4294967296 + b5 * 1099511627776 + b6 * 281474976710656
          + b7 * 72057594037927936 < 9223372036854775808
        then ((b0 + b1 * 256 + b2 * 65536 + b3 * 16777216
          + b4 * 4294967296 + b5 * 1099511627776 + b6 * 281474976710656
          + b7 * 72057594037927936 : Nat) : Int)
        else ((b0 + b1 * 256 + b2 * 65536 + b3 * 16777216
          + b4 * 4294967296 + b5 * 1099511627776 + b6 * 281474976710656
          + b7 * 72057594037927936 : Nat) : Int) - 18446744073709551616 := rfl

/-- C5: for every representable 64-bit signed timestamp the emitted
timestamp field is exactly 8 bytes encoding the value in little-endian
two's complement, decoding recovers the value losslessly, and for a frame
whose presentation timestamp is the undefined sentinel the emitted
timestamp bytes encode 0. -/
theorem write_pts_roundtrip (x : Int)
    (hlo : -9223372036854775808 ≤ x) (hhi : x < 9223372036854775808) :
    (write_pts_bytes x).length = 8
      ∧ decode_i64_le (write_pts_bytes x) = x
      ∧ (∀ (rescale : Int → Int) (frame : AVFrame), frame.pts = none →
          decode_i64_le (write_pts_bytes (pts_us_of rescale frame)) = 0) := by
  have body : ∀ y : Int, -9223372036854775808 ≤ y →
      y < 9223372036854775808 → decode_i64_le (write_pts_bytes y) = y := by
    intro y hl hh
    have e0 : ((y % 256).toNat : Int) = y % 256 :=
      Int.toNat_of_nonneg (Int.emod_nonneg _ (by norm_num))
    have e1 : ((y / 256 % 256).toNat : Int) = y / 256 % 256 :=
      Int.toNat_of_nonneg (Int.emod_nonneg _ (by norm_num))
    have e2 : ((y / 65536 % 256).toNat : Int) = y / 65536 % 256 :=
      Int.toNat_of_nonneg (Int.emod_nonneg _ (by norm_num))
    have e3 : ((y / 16777216 % 256).toNat : Int) = y / 16777216 % 256 :=
      Int.toNat_of_nonneg (Int.emod_nonneg _ (by norm_num))
    have e4 : ((y / 4294967296 % 256).toNat : Int) = y / 4294967296 % 256 :=
      Int.toNat_of_nonneg (Int.emod_nonneg _ (by norm_num))
    have e5 : ((y / 1099511627776 % 256).toNat : Int)
        = y / 1099511627776 % 256 :=
      Int.toNat_of_nonneg (Int.emod_nonneg _ (by norm_num))
    have e6 : ((y / 281474976710656 % 256).toNat : Int)
        = y / 281474976710656 % 256 :=
      Int.toNat_of_nonneg (Int.emod_nonneg _ (by norm_num))
    have e7 : ((y / 72057594037927936 % 256).toNat : Int)
        = y / 72057594037927936 % 256 :=
      Int.toNat_of_nonneg (Int.emod_nonneg _ (by norm_num))
    rw [write_pts_bytes, decode_i64_le_cons]
    split
    case isTrue hc =>
      push_cast [e0, e1, e2, e3, e4, e5, e6, e7]
      omega
    case isFalse hc =>
      rw [Nat.not_lt] at hc
      push_cast [e0, e1, e2, e3, e4, e5, e6, e7]
      omega
  refine ⟨rfl, body x hlo hhi, ?_⟩
  intro rescale frame hpts
  simp only [pts_us_of, hpts]
  exact body 0 (by norm_num) (by norm_num)

/-- C5 witness: the timestamp -5 round-trips through the 8-byte encoding,
and a sentinel frame's emitted timestamp decodes to 0. -/
theorem write_pts_roundtrip_witness :
    (write_pts_bytes (-5)).length = 8
      ∧ decode_i64_le (write_pts_bytes (-5)) = -5
      ∧ (∀ (rescale : Int → Int) (frame : AVFrame), frame.pts = none →
          decode_i64_le (write_pts_bytes (pts_us_of rescale frame)) = 0) :=
  write_pts_roundtrip (-5) (by norm_num) (by norm_num)

/-- C6: for all even width and height (both at least 2, and representable
as nonnegative C ints as the frame fields are), encoding a dimension packet
and decoding it recovers exactly the pair (width, height). -/
theorem header_roundtrip (w h : Nat)
    (hw2 : 2 ≤ w) (hweven : w % 2 = 0) (hh2 : 2 ≤ h) (hheven : h % 2 = 0)
    (hwr : w < 2147483648) (hhr : h < 2147483648) :
    decode_header (header_bytes w h) = some (w, h) := by
  simp only [header_bytes, le32_bytes, List.cons_append, List.nil_append,
    decode_header]
  rw [if_pos (by norm_num)]
  simp only [Option.some.injEq, Prod.mk.injEq]
  constructor <;> omega

/-- C6 witness: the 640x480 dimension packet round-trips. -/
theorem header_roundtrip_witness :
    decode_header (header_bytes 640 480) = some (640, 480) :=
  header_roundtrip 640 480 (by norm_num) (by norm_num) (by norm_num)
    (by norm_num) (by norm_num) (by norm_num)

/-- The push guard (frame_pipe_sink.c:210-212): a negative descriptor or a
set `stopped` flag makes push return failure with state and I/O world
untouched. -/
theorem push_not_ready (rescale : Int → Int) (fps : SinkState)
    (frame : AVFrame) (io : IOState)
    (h : fps.fd < 0 ∨ fps.stopped = true) :
    sc_frame_pipe_sink_push rescale fps frame io = (fps, io, false) := by
  unfold sc_frame_pipe_sink_push
  rw [if_pos h]

/-- A successful header write updates exactly the stored dimensions and
appends exactly the 12 header bytes as one chunk. -/
theorem write_header_ok (fps : SinkState) (w h : Nat) (io : IOState)
    (hok : (write_header fps w h io).2.2 = true) :
    (write_header fps w h io).1 = { fps with width := w, height := h }
      ∧ (write_header fps w h io).2.1.chunks
          = io.chunks ++ [header_bytes w h] := by
  unfold write_header at *
  by_cases hw : (doWrite io (header_bytes w h)).2 = true
  · simp only [hw, if_true]
    exact ⟨trivial, doWrite_ok_chunks io (header_bytes w h) hw⟩
  · simp only [Bool.not_eq_true] at hw
    simp [hw] at hok

/-- A failed header write leaves the sink state unchanged. -/
theorem write_header_fail (fps : SinkState) (w h : Nat) (io : IOState)
    (hfail : (write_header fps w h io).2.2 = false) :
    (write_header fps w h io).1 = fps := by
  unfold write_header at *
  by_cases hw : (doWrite io (header_bytes w h)).2 = true
  · simp [hw] at hfail
  · simp only [Bool.not_eq_true] at hw
    simp [hw]

/-- Whatever the outcome, a header write touches only the dimension
fields. -/
theorem write_header_preserves (fps : SinkState) (w h : Nat) (io : IOState) :
    (write_header fps w h io).1.fd = fps.fd
      ∧ (write_header fps w h io).1.stopped = fps.stopped
      ∧ (write_header fps w h io).1.frame_buf = fps.frame_buf
      ∧ (write_header fps w h io).1.frame_buf_size = fps.frame_buf_size := by
  unfold write_header
  by_cases hw : (doWrite io (header_bytes w h)).2 = true
  · simp [hw]
  · simp only [Bool.not_eq_true] at hw
    simp [hw]

/-- Whatever the outcome, a payload write touches only the scratch-buffer
fields. -/
theorem write_frame_data_preserves (fps : SinkState) (frame : AVFrame)
    (io : IOState) :
    (write_frame_data fps frame io).1.fd = fps.fd
      ∧ (write_frame_data fps frame io).1.stopped = fps.stopped
      ∧ (write_frame_data fps frame io).1.width = fps.width
      ∧ (write_frame_data fps frame io).1.height = fps.height := by
  unfold write_frame_data
  by_cases hd : can_write_direct frame
  · simp [hd]
  · simp only [hd, Bool.false_eq_true, if_false]
    by_cases hb : fps.frame_buf = false
        ∨ fps.frame_buf_size < frame_payload_size frame
    · simp only [hb, if_true]
      by_cases ha : io.allocOk io.nallocs <;> simp [ha]
    · simp [hb]

/-- The recorded scratch-buffer capacity never decreases across one payload
write, given the buffer-consistency invariant (a NULL buffer has recorded
size 0, as established by init): the slow path grows the recorded size to
the frame size only when it was smaller, and a failed allocation leaves the
recorded size unchanged. -/
theorem write_frame_data_buf_mono (fps : SinkState) (frame : AVFrame)
    (io : IOState) (hinv : fps.frame_buf = false → fps.frame_buf_size = 0) :
    fps.frame_buf_size ≤ (write_frame_data fps frame io).1.frame_buf_size := by
  unfold write_frame_data
  by_cases hd : can_write_direct frame
  · simp [hd]
  · simp only [hd, Bool.false_eq_true, if_false]
    by_cases hb : fps.frame_buf = false
        ∨ fps.frame_buf_size < frame_payload_size frame
    · simp only [hb, if_true]
      by_cases ha : io.allocOk io.nallocs
      · have hcase : fps.frame_buf_size = 0
            ∨ fps.frame_buf_size < frame_payload_size frame := by
          rcases hb with hb1 | hb2
          · exact Or.inl (hinv hb1)
          · exact Or.inr hb2
        simp only [ha, if_true]
        simp
        omega
      · simp [ha]
    · simp [hb]

/-- When the copy path leaves a scratch buffer allocated, that buffer's
recorded capacity covers the current frame's whole payload. -/
theorem write_frame_data_buf_adequate (fps : SinkState) (frame : AVFrame)
    (io : IOState) (hd : can_write_direct frame = false)
    (hbuf : (write_frame_data fps frame io).1.frame_buf = true) :
    frame_payload_size frame
      ≤ (write_frame_data fps frame io).1.frame_buf_size := by
  unfold write_frame_data at *
  simp only [hd, Bool.false_eq_true, if_false] at *
  by_cases hb : fps.frame_buf = false
      ∨ fps.frame_buf_size < frame_payload_size frame
  · simp only [hb, if_true] at *
    by_cases ha : io.allocOk io.nallocs
    · simp [ha]
    · simp [ha] at hbuf
  · have hsz : ¬ fps.frame_buf_size < frame_payload_size frame :=
      fun hlt => hb (Or.inr hlt)
    rw [if_neg hb]
    simp only []
    omega

/-- C8: pushing a frame on an instance whose descriptor is negative (never
successfully opened) or whose `stopped` flag is set returns failure
immediately, performs no I/O, and leaves the state (dimensions, stopped
flag, scratch buffer) and the I/O world unchanged. -/
theorem push_rejected_when_unopened_or_stopped (rescale : Int → Int)
    (fps : SinkState) (frame : AVFrame) (io : IOState)
    (h : fps.fd < 0 ∨ fps.stopped = true) :
    sc_frame_pipe_sink_push rescale fps frame io = (fps, io, false) :=
  push_not_ready rescale fps frame io h

/-- C8 witness: pushing on the freshly initialized (never opened) instance
has no effect and fails. -/
theorem push_rejected_when_unopened_or_stopped_witness :
    sc_frame_pipe_sink_push (fun p => p) sc_frame_pipe_sink_init testFrame
        ioAllOk
      = (sc_frame_pipe_sink_init, ioAllOk, false) :=
  push_rejected_when_unopened_or_stopped (fun p => p) sc_frame_pipe_sink_init
    testFrame ioAllOk (Or.inl (by norm_num [sc_frame_pipe_sink_init]))

/-- C10: close resets the descriptor field to the -1 sentinel (and an
already-negative descriptor stays as it is), a failed open leaves the
descriptor negative, and push rejects any instance whose descriptor is
negative, with no write attempted and no state change. -/
theorem negative_fd_rejects_push :
    (∀ fps : SinkState, 0 ≤ fps.fd → (sc_frame_pipe_sink_close fps).fd = -1)
      ∧ (∀ fps : SinkState, fps.fd < 0
          → (sc_frame_pipe_sink_close fps).fd = fps.fd)
      ∧ (∀ (fps : SinkState) (mk : Bool) (nfd : Int), fps.fd < 0
          → (sc_frame_pipe_sink_open fps mk nfd).2 = false
          → (sc_frame_pipe_sink_open fps mk nfd).1.fd < 0)
      ∧ (∀ (rescale : Int → Int) (fps : SinkState) (frame : AVFrame)
          (io : IOState), fps.fd < 0
          → sc_frame_pipe_sink_push rescale fps frame io = (fps, io, false)) := by
  refine ⟨?_, ?_, ?_, ?_⟩
  · intro fps hfd
    unfold sc_frame_pipe_sink_close
    rw [if_pos hfd]
  · intro fps hfd
    unfold sc_frame_pipe_sink_close
    rw [if_neg (by omega)]
  · intro fps mk nfd hfd hfail
    unfold sc_frame_pipe_sink_open at *
    by_cases hmk : mk = false
    · simp [hmk]
      exact hfd
    · simp only [hmk, Bool.false_eq_true, if_false] at *
      by_cases hnfd : nfd < 0
      · simp [hnfd]
      · simp [hnfd] at hfail
  · intro rescale fps frame io hfd
    exact push_not_ready rescale fps frame io (Or.inl hfd)

/-- C10 witness: closing an open instance leaves descriptor -1, a failed
open keeps it negative, and push on the closed instance is rejected
unchanged. -/
theorem negative_fd_rejects_push_witness :
    (sc_frame_pipe_sink_close openedState).fd = -1
      ∧ (sc_frame_pipe_sink_open sc_frame_pipe_sink_init true (-1)).1.fd < 0
      ∧ sc_frame_pipe_sink_push (fun p => p) sc_frame_pipe_sink_init testFrame
          ioAllOk = (sc_frame_pipe_sink_init, ioAllOk, false) :=
  ⟨negative_fd_rejects_push.1 openedState (by norm_num [openedState]),
   negative_fd_rejects_push.2.2.1 sc_frame_pipe_sink_init true (-1)
     (by norm_num [sc_frame_pipe_sink_init])
     (by norm_num [sc_frame_pipe_sink_open, sc_frame_pipe_sink_init]),
   negative_fd_rejects_push.2.2.2 (fun p => p) sc_frame_pipe_sink_init
     testFrame ioAllOk (by norm_num [sc_frame_pipe_sink_init])⟩

/-- C7: the `stopped` flag is permanent for the push lifetime of an
instance. A push on a stopped sink fails with no state change and no I/O;
any write failure during a push (header, timestamp or payload) leaves the
resulting state stopped; and from a stopped state every subsequent sequence
of pushes leaves state and I/O world untouched — the sink never writes
bytes again. -/
theorem stopped_is_permanent (rescale : Int → Int) (fps : SinkState)
    (frame : AVFrame) (io : IOState) :
    (fps.stopped = true →
        sc_frame_pipe_sink_push rescale fps frame io = (fps, io, false))
      ∧ (fps.stopped = false → 0 ≤ fps.fd →
          (sc_frame_pipe_sink_push rescale fps frame io).2.2 = false →
          (sc_frame_pipe_sink_push rescale fps frame io).1.stopped = true)
      ∧ (fps.stopped = true → ∀ frames : List AVFrame,
          pushSeq rescale frames fps io = (fps, io)) := by
  refine ⟨?_, ?_, ?_⟩
  · intro hst
    exact push_not_ready rescale fps frame io (Or.inr hst)
  · intro hst hfd hfail
    have hguard : ¬(fps.fd < 0 ∨ fps.stopped = true) := by
      simp [hst]
      omega
    unfold sc_frame_pipe_sink_push at hfail ⊢
    rw [if_neg hguard] at hfail ⊢
    split at hfail <;> dsimp only at hfail ⊢ <;>
      (repeat' split at hfail) <;> simp_all
  · intro hst frames
    induction frames with
    | nil => rfl
    | cons f fs ih =>
      simp only [pushSeq, push_not_ready rescale fps f io (Or.inr hst)]
      exact ih

/-- C7 witness: a stopped sink rejects a push unchanged, a failing header
write leaves the sink stopped, and a stopped sink is inert across a
two-frame push sequence. -/
theorem stopped_is_permanent_witness :
    sc_frame_pipe_sink_push (fun p => p) stoppedState testFrame ioAllOk
        = (stoppedState, ioAllOk, false)
      ∧ (sc_frame_pipe_sink_push (fun p => p) openedState testFrame
          ioWriteFail).1.stopped = true
      ∧ pushSeq (fun p => p) [testFrame, testFramePadded] stoppedState ioAllOk
          = (stoppedState, ioAllOk) :=
  ⟨(stopped_is_permanent (fun p => p) stoppedState testFrame ioAllOk).1 rfl,
   (stopped_is_permanent (fun p => p) openedState testFrame ioWriteFail).2.1
     rfl (by norm_num [openedState]) (by decide),
   (stopped_is_permanent (fun p => p) stoppedState testFrame ioAllOk).2.2 rfl
     [testFrame, testFramePadded]⟩

/-- When a payload write succeeds, the buffer-consistency invariant (NULL
buffer implies recorded size 0) is preserved; a successful slow path always
leaves an allocated buffer, and the direct path leaves the buffer fields
unchanged. -/
theorem write_frame_data_buf_inv (fps : SinkState) (frame : AVFrame)
    (io : IOState) (hinv : fps.frame_buf = false → fps.frame_buf_size = 0)
    (hok : (write_frame_data fps frame io).2.2 = true) :
    (write_frame_data fps frame io).1.frame_buf = false →
    (write_frame_data fps frame io).1.frame_buf_size = 0 := by
  unfold write_frame_data at *
  by_cases hd : can_write_direct frame
  · simp only [hd, if_true] at *
    exact hinv
  · simp only [hd, Bool.false_eq_true, if_false] at *
    by_cases hb : fps.frame_buf = false
        ∨ fps.frame_buf_size < frame_payload_size frame
    · simp only [hb, if_true] at *
      by_cases ha : io.allocOk io.nallocs
      · simp only [ha, if_true] at *
        intro habs
        simp at habs
      · simp [ha] at hok
    · rw [if_neg hb] at *
      exact hinv

/-- One push never decreases the recorded scratch-buffer capacity and
preserves the buffer-consistency invariant of non-stopped states: the only
way push can leave a NULL buffer with a stale recorded size (a failed
allocation) also sets `stopped`. -/
theorem push_buf_step (rescale : Int → Int) (fps : SinkState)
    (frame : AVFrame) (io : IOState)
    (hinv : fps.stopped = false → fps.frame_buf = false →
      fps.frame_buf_size = 0) :
    fps.frame_buf_size
        ≤ (sc_frame_pipe_sink_push rescale fps frame io).1.frame_buf_size
      ∧ ((sc_frame_pipe_sink_push rescale fps frame io).1.stopped = false →
         (sc_frame_pipe_sink_push rescale fps frame io).1.frame_buf = false →
         (sc_frame_pipe_sink_push rescale fps frame io).1.frame_buf_size
           = 0) := by
  by_cases hg : fps.fd < 0 ∨ fps.stopped = true
  · rw [push_not_ready rescale fps frame io hg]
    exact ⟨Nat.le_refl _, hinv⟩
  · have hst : fps.stopped = false := by
      cases hstop : fps.stopped
      · rfl
      · exact absurd (Or.inr hstop) hg
    have hbuf0 : fps.frame_buf = false → fps.frame_buf_size = 0 := hinv hst
    unfold sc_frame_pipe_sink_push
    rw [if_neg hg]
    split
    next hdim =>
      try dsimp only
      have hHp := write_header_preserves fps frame.width frame.height io
      have hinvH : (write_header fps frame.width frame.height io).1.frame_buf
          = false →
          (write_header fps frame.width frame.height io).1.frame_buf_size
            = 0 := by
        rw [hHp.2.2.1, hHp.2.2.2]
        exact hbuf0
      split
      next h1 =>
        try dsimp only
        exact ⟨by simp [hHp.2.2.2], by intro habs; simp at habs⟩
      next h1 =>
        try dsimp only
        have hFmono := write_frame_data_buf_mono
          (write_header fps frame.width frame.height io).1 frame
          (write_pts (write_header fps frame.width frame.height io).2.1
            (pts_us_of rescale frame)).1 hinvH
        split
        next h2 =>
          try dsimp only
          exact ⟨by simp [hHp.2.2.2], by intro habs; simp at habs⟩
        next h2 =>
          try dsimp only
          split
          next h3 =>
            try dsimp only
            refine ⟨?_, by intro habs; simp at habs⟩
            calc fps.frame_buf_size
                = (write_header fps frame.width
                    frame.height io).1.frame_buf_size := by rw [hHp.2.2.2]
              _ ≤ _ := by simpa using hFmono
          next h3 =>
            try dsimp only
            have h3t : (write_frame_data
                (write_header fps frame.width frame.height io).1 frame
                (write_pts (write_header fps frame.width frame.height io).2.1
                  (pts_us_of rescale frame)).1).2.2 = true := by
              simp at h3
              exact h3
            refine ⟨?_, ?_⟩
            · calc fps.frame_buf_size
                  = (write_header fps frame.width
                      frame.height io).1.frame_buf_size := by rw [hHp.2.2.2]
                _ ≤ _ := hFmono
            · intro hstF hfbF
              exact write_frame_data_buf_inv _ frame _ hinvH h3t hfbF
    next hdim =>
      try dsimp only
      have hFmono := write_frame_data_buf_mono fps frame
        (write_pts io (pts_us_of rescale frame)).1 hbuf0
      split
      next h1 =>
        simp at h1
      next h1 =>
        try dsimp only
        split
        next h2 =>
          try dsimp only
          exact ⟨Nat.le_refl _, by intro habs; simp at habs⟩
        next h2 =>
          try dsimp only
          split
          next h3 =>
            try dsimp only
            exact ⟨hFmono, by intro habs; simp at habs⟩
          next h3 =>
            try dsimp only
            have h3t : (write_frame_data fps frame
                (write_pts io (pts_us_of rescale frame)).1).2.2 = true := by
              simp at h3
              exact h3
            exact ⟨hFmono, fun _ => write_frame_data_buf_inv fps frame _
              hbuf0 h3t⟩

/-- C9: across one push and across every sequence of pushes, the recorded
scratch-buffer capacity never shrinks, given the buffer-consistency
invariant of non-stopped states (a NULL buffer has recorded size 0, true of
the freshly initialized instance and preserved by every push); and whenever
the copy path leaves a buffer in place, that buffer covers the current
frame's total payload size. -/
theorem scratch_buffer_grow_only (rescale : Int → Int) (fps : SinkState)
    (frame : AVFrame) (io : IOState) (frames : List AVFrame)
    (hinv : fps.stopped = false → fps.frame_buf = false →
      fps.frame_buf_size = 0) :
    fps.frame_buf_size
        ≤ (sc_frame_pipe_sink_push rescale fps frame io).1.frame_buf_size
      ∧ fps.frame_buf_size
          ≤ (pushSeq rescale frames fps io).1.frame_buf_size
      ∧ (∀ (fps2 : SinkState) (fr : AVFrame) (io2 : IOState),
          can_write_direct fr = false →
          (write_frame_data fps2 fr io2).1.frame_buf = true →
          frame_payload_size fr
            ≤ (write_frame_data fps2 fr io2).1.frame_buf_size) := by
  have main : ∀ (fs : List AVFrame) (st : SinkState) (w : IOState),
      (st.stopped = false → st.frame_buf = false → st.frame_buf_size = 0) →
      st.frame_buf_size ≤ (pushSeq rescale fs st w).1.frame_buf_size := by
    intro fs
    induction fs with
    | nil => intro st w _; exact Nat.le_refl _
    | cons f fs2 ih =>
      intro st w hi
      have step := push_buf_step rescale st f w hi
      simp only [pushSeq]
      exact Nat.le_trans step.1 (ih _ _ step.2)
  exact ⟨(push_buf_step rescale fps frame io hinv).1,
    main frames fps io hinv,
    fun fps2 fr io2 hd hb => write_frame_data_buf_adequate fps2 fr io2 hd hb⟩

/-- C9 witness: a freshly opened instance, one padded-frame push and a
one-frame push sequence, plus a concrete copy-path adequacy instance. -/
theorem scratch_buffer_grow_only_witness :
    openedState.frame_buf_size
        ≤ (sc_frame_pipe_sink_push (fun p => p) openedState testFramePadded
            ioAllOk).1.frame_buf_size
      ∧ openedState.frame_buf_size
          ≤ (pushSeq (fun p => p) [testFramePadded] openedState
              ioAllOk).1.frame_buf_size
      ∧ frame_payload_size testFramePadded
          ≤ (write_frame_data stoppedState testFramePadded
              ioAllOk).1.frame_buf_size :=
  ⟨(scratch_buffer_grow_only (fun p => p) openedState testFramePadded ioAllOk
      [testFramePadded] (by decide)).1,
   (scratch_buffer_grow_only (fun p => p) openedState testFramePadded ioAllOk
      [testFramePadded] (by decide)).2.1,
   (scratch_buffer_grow_only (fun p => p) openedState testFramePadded ioAllOk
      [testFramePadded] (by decide)).2.2 stoppedState testFramePadded ioAllOk
     (by decide) (by decide)⟩

/-- C3: on a push from an open, non-stopped sink that succeeds, a 12-byte
header packet is emitted immediately before the frame packet (timestamp
chunk then payload chunk) exactly when the frame's dimensions differ from
the stored last-emitted dimensions (true for the first frame, whose
dimensions differ from the reset value); after the push the stored
dimensions equal the frame's; and a successful header write by itself
stores that frame's dimensions. -/
theorem push_header_exactly_on_dim_change (rescale : Int → Int)
    (fps : SinkState) (frame : AVFrame) (io : IOState)
    (hfd : 0 ≤ fps.fd) (hst : fps.stopped = false)
    (hok : (sc_frame_pipe_sink_push rescale fps frame io).2.2 = true) :
    ((frame.width ≠ fps.width ∨ frame.height ≠ fps.height) →
        (sc_frame_pipe_sink_push rescale fps frame io).2.1.chunks
          = io.chunks
            ++ [header_bytes frame.width frame.height,
                write_pts_bytes (pts_us_of rescale frame),
                payload_bytes frame])
      ∧ ((frame.width = fps.width ∧ frame.height = fps.height) →
          (sc_frame_pipe_sink_push rescale fps frame io).2.1.chunks
            = io.chunks
              ++ [write_pts_bytes (pts_us_of rescale frame),
                  payload_bytes frame])
      ∧ (sc_frame_pipe_sink_push rescale fps frame io).1.width = frame.width
      ∧ (sc_frame_pipe_sink_push rescale fps frame io).1.height = frame.height
      ∧ (∀ w h : Nat, (write_header fps w h io).2.2 = true →
          (write_header fps w h io).1.width = w
            ∧ (write_header fps w h io).1.height = h) := by
  have hlast : ∀ w h : Nat, (write_header fps w h io).2.2 = true →
      (write_header fps w h io).1.width = w
        ∧ (write_header fps w h io).1.height = h := by
    intro w h hw
    rw [(write_header_ok fps w h io hw).1]
    exact ⟨rfl, rfl⟩
  have hguard : ¬(fps.fd < 0 ∨ fps.stopped = true) := by
    simp [hst]
    omega
  unfold sc_frame_pipe_sink_push at hok ⊢
  rw [if_neg hguard] at hok ⊢
  split at hok
  next hdim =>
    rw [if_pos hdim]
    dsimp only at hok ⊢
    split at hok
    next h1 => simp at hok
    next h1 =>
      split at hok
      next h2 => simp at hok
      next h2 =>
        split at hok
        next h3 => simp at hok
        next h3 =>
          rw [if_neg h1, if_neg h2, if_neg h3]
          have h2t : (write_pts
              (write_header fps frame.width frame.height io).2.1
              (pts_us_of rescale frame)).2 = true := by
            simp at h2
            exact h2
          have h3t : (write_frame_data
              (write_header fps frame.width frame.height io).1 frame
              (write_pts (write_header fps frame.width frame.height io).2.1
                (pts_us_of rescale frame)).1).2.2 = true := by
            simp at h3
            exact h3
          have h1t : (write_header fps frame.width frame.height io).2.2
              = true := by
            simp at h1
            exact h1
          have hH := write_header_ok fps frame.width frame.height io h1t
          have hP : (write_pts
              (write_header fps frame.width frame.height io).2.1
              (pts_us_of rescale frame)).1.chunks
              = (write_header fps frame.width frame.height io).2.1.chunks
                ++ [write_pts_bytes (pts_us_of rescale frame)] :=
            doWrite_ok_chunks _ _ h2t
          have hF := write_frame_data_ok_chunks
            (write_header fps frame.width frame.height io).1 frame
            (write_pts (write_header fps frame.width frame.height io).2.1
              (pts_us_of rescale frame)).1 h3t
          have hpre := write_frame_data_preserves
            (write_header fps frame.width frame.height io).1 frame
            (write_pts (write_header fps frame.width frame.height io).2.1
              (pts_us_of rescale frame)).1
          refine ⟨fun _ => ?_, fun heq => ?_, ?_, ?_, hlast⟩
          · simp [hF, hP, hH.2, List.append_assoc]
          · rcases hdim with hne | hne
            · exact absurd heq.1 hne
            · exact absurd heq.2 hne
          · dsimp only
            rw [hpre.2.2.1, hH.1]
          · dsimp only
            rw [hpre.2.2.2, hH.1]
  next hdim =>
    rw [if_neg hdim]
    dsimp only at hok ⊢
    push_neg at hdim
    split at hok
    next h1 => simp at h1
    next h1 =>
      split at hok
      next h2 => simp at hok
      next h2 =>
        split at hok
        next h3 => simp at hok
        next h3 =>
          rw [if_neg h1, if_neg h2, if_neg h3]
          have h2t : (write_pts io (pts_us_of rescale frame)).2 = true := by
            simp at h2
            exact h2
          have h3t : (write_frame_data fps frame
              (write_pts io (pts_us_of rescale frame)).1).2.2 = true := by
            simp at h3
            exact h3
          have hP : (write_pts io (pts_us_of rescale frame)).1.chunks
              = io.chunks ++ [write_pts_bytes (pts_us_of rescale frame)] :=
            doWrite_ok_chunks _ _ h2t
          have hF := write_frame_data_ok_chunks fps frame
            (write_pts io (pts_us_of rescale frame)).1 h3t
          have hpre := write_frame_data_preserves fps frame
            (write_pts io (pts_us_of rescale frame)).1
          refine ⟨fun hne => ?_, fun _ => ?_, ?_, ?_, hlast⟩
          · rcases hne with hne | hne
            · exact absurd hdim.1 hne
            · exact absurd hdim.2 hne
          · simp [hF, hP, List.append_assoc]
          · simp [hpre.2.2.1, hdim.1]
          · simp [hpre.2.2.2, hdim.2]

/-- C3 witness: the first push after open (stored dimensions 0x0, frame
2x2) emits header, timestamp and payload chunks in order and stores the
frame's dimensions. -/
theorem push_header_exactly_on_dim_change_witness :
    (sc_frame_pipe_sink_push (fun p => p) openedState testFrame
        ioAllOk).2.1.chunks
      = ioAllOk.chunks
        ++ [header_bytes testFrame.width testFrame.height,
            write_pts_bytes (pts_us_of (fun p => p) testFrame),
            payload_bytes testFrame]
    ∧ (sc_frame_pipe_sink_push (fun p => p) openedState testFrame
        ioAllOk).1.width = testFrame.width
    ∧ (sc_frame_pipe_sink_push (fun p => p) openedState testFrame
        ioAllOk).1.height = testFrame.height := by
  have T := push_header_exactly_on_dim_change (fun p => p) openedState
    testFrame ioAllOk (by norm_num [openedState]) rfl (by decide)
  exact ⟨T.1 (by decide), T.2.2.1, T.2.2.2.1⟩

end FramePipeSink
